import Mathlib

/-!
Verification of the telegraf shim (`plugins/common/shim`) and the Librato
output plugin (`plugins/outputs/librato/librato.go`) against their
natural-language specification.

The Go code is shallowly embedded: metrics and gauges are concrete
structures, the influx serializer and the HTTP client are parameters of
the embedding (they live outside the analysed files), and the stateful
loops (`writeProcessedMetrics`, the 300-gauge batching loop of
`Librato.Write`) become structurally recursive Lean functions that return
the full trace of their effects (dispositions called, records written,
sub-batches posted) together with the Go function's return value.
-/

namespace Telegraf

/-- Terminal disposition of a tracked metric: the three calls
`m.Accept()`, `m.Reject()`, `m.Drop()` of the telegraf tracking API. -/
inductive Disposition where
  | accept
  | reject
  | drop
deriving DecidableEq, Repr

/-- A telegraf field value.  Telegraf field values range over exactly
these five Go types (int64, uint64, float64, bool, string); float64
payloads are carried as exact rationals, which is faithful here because
no analysed code path computes with the numeric value. -/
inductive FieldValue where
  | int (i : Int)
  | uint (u : Nat)
  | float (q : Rat)
  | bool (b : Bool)
  | str (s : String)
deriving DecidableEq, Repr

/-- A telegraf metric: measurement name, tag list, field list and a
timestamp.  `timeUnix` is the value of `m.Time().Unix()` (seconds). -/
structure Metric where
  name : String
  tags : List (String × String)
  fields : List (String × FieldValue)
  timeUnix : Int
deriving DecidableEq, Repr

/-! ## Shim output path (`Shim.writeProcessedMetrics`)

The influx serializer and the stdout stream are external to the shim
file, so they are parameters: `ShimSerializer.serialize` stands for
`serializer.Serialize(m)` (returning bytes or an error) and
`OutStream.writeOk hist b` says whether `fmt.Fprint(s.stdout, b)`
succeeds after the records `hist` have already been written. -/

/-- The influx serializer as used by `writeProcessedMetrics`:
`initErr` is the result of `serializer.Init()`, `serialize` of
`serializer.Serialize(m)` (serialized record, or an error). -/
structure ShimSerializer where
  initErr : Option String
  serialize : Metric → Except String String

/-- The shim's stdout stream: `writeOk hist b = true` iff writing record
`b` succeeds when the records `hist` have been written before it. -/
structure OutStream where
  writeOk : List String → String → Bool

/-- The observable outcome of one run of `writeProcessedMetrics`:
`disp` logs, in channel order, every disposition call made (exactly one
per metric received from the channel), `out` is the sequence of records
written to stdout, and `err` is the function's return value
(`none` = nil). -/
structure ShimRun where
  disp : List (Metric × Disposition)
  out : List String
  err : Option String
deriving DecidableEq, Repr

/-- The `for`/`select` loop of `writeProcessedMetrics`, with the metric
channel embedded as the list of metrics received before the channel
close.  Each step mirrors the Go body: serialize (on error `m.Reject()`
and return), write to stdout (on error `m.Drop()` and return), then
`m.Accept()`; on channel close return nil. -/
def wpmLoop (sz : ShimSerializer) (w : OutStream) : List Metric → List String → ShimRun
  | [], _ => ⟨[], [], none⟩
  | m :: ms, hist =>
    match sz.serialize m with
    | .error e => ⟨[(m, .reject)], [], some ("failed to serialize metric: " ++ e)⟩
    | .ok b =>
      if w.writeOk hist b then
        let r := wpmLoop sz w ms (hist ++ [b])
        ⟨(m, .accept) :: r.disp, b :: r.out, r.err⟩
      else
        ⟨[(m, .drop)], [], some "failed to write metric"⟩

/-- `Shim.writeProcessedMetrics`: initialize the serializer, then run the
receive loop over the channel contents `ch`. -/
def writeProcessedMetrics (sz : ShimSerializer) (w : OutStream) (ch : List Metric) : ShimRun :=
  match sz.initErr with
  | some e => ⟨[], [], some ("creating serializer failed: " ++ e)⟩
  | none => wpmLoop sz w ch []

/-- All metrics of the list serialize successfully and each record's
write succeeds, starting from write history `hist`. -/
def allOkB (sz : ShimSerializer) (w : OutStream) : List String → List Metric → Bool
  | _, [] => true
  | hist, m :: ms =>
    match sz.serialize m with
    | .error _ => false
    | .ok b => w.writeOk hist b && allOkB sz w (hist ++ [b]) ms

/-- The records that the serializer produces for a list of metrics
(dropping the metrics it fails on); under `allOkB` this is exactly the
write history the loop accumulates. -/
def oksOf (sz : ShimSerializer) (ms : List Metric) : List String :=
  ms.filterMap (fun m => (sz.serialize m).toOption)

/-! ## `Shim.Run`

`Shim.Run` selects among the configured units (`s.Input`, `s.Processor`,
`s.Output`, each possibly nil) with an if/else-if chain, runs the
selected one, and wraps its error.  The embedding records which units
were actually run. -/

/-- The three kinds of unit a shim can host. -/
inductive UnitKind where
  | input
  | processor
  | output
deriving DecidableEq, Repr

/-- A shim's configuration as far as `Shim.Run` inspects it: which of
the three unit fields are non-nil, and the result (`none` = nil error)
that `RunInput` / `RunProcessor` / `RunOutput` would return if invoked. -/
structure ShimUnits where
  hasInput : Bool
  hasProcessor : Bool
  hasOutput : Bool
  runInput : Option String
  runProcessor : Option String
  runOutput : Option String
deriving DecidableEq, Repr

/-- `Shim.Run`: the list of units executed (in order) and the returned
error.  Mirrors the if/else-if chain of the Go function, including the
`fmt.Errorf` wrapping and the final `errors.New("nothing to run")`. -/
def shimRun (s : ShimUnits) : List UnitKind × Option String :=
  if s.hasInput then
    ([.input], s.runInput.map (fun e => "running input failed: " ++ e))
  else if s.hasProcessor then
    ([.processor], s.runProcessor.map (fun e => "running processor failed: " ++ e))
  else if s.hasOutput then
    ([.output], s.runOutput.map (fun e => "running output failed: " ++ e))
  else
    ([], some "nothing to run")

/-! ## Librato output plugin (`plugins/outputs/librato/librato.go`) -/

/-- A Librato gauge, as built by `buildGauges`.  `value` is the float64
payload, modelled as an exact rational (all conversions performed by
`Gauge.setValue` on the analysed paths are injective enough for the
claims, which never compute with the value). -/
structure Gauge where
  name : String
  value : Rat
  source : String
  measureTime : Int
deriving DecidableEq, Repr

/-- `reUnacceptedChar.ReplaceAllString(s, "-")`: replace every character
outside `[.a-zA-Z0-9_-]` by `-`. -/
def replaceUnaccepted (s : String) : String :=
  String.mk (s.data.map (fun c =>
    if c.isAlphanum || c = '.' || c = '_' || c = '-' then c else '-'))

/-- `verifyValue`: every field value is acceptable except strings. -/
def verifyValue : FieldValue → Bool
  | .str _ => false
  | _ => true

/-- `Gauge.setValue`: convert a field value to the gauge's float64
value.  int64, uint64 and float64 convert numerically, bool maps to
1/0; any other dynamic type (here: string, which in `buildGauges` is
already filtered out by `verifyValue`) hits the `default` arm and
errors. -/
def setValue : FieldValue → Except String Rat
  | .int i => .ok (i : Rat)
  | .uint u => .ok (u : Rat)
  | .float q => .ok q
  | .bool b => .ok (if b then 1 else 0)
  | .str _ => .error "undeterminable type"

/-- The field loop of `buildGauges`: for each field build a gauge named
`name` or `name.field`, skip values rejected by `verifyValue`, and fail
if `setValue` fails.  `src` is the already-computed metric source and
`t` the metric's Unix time. -/
def buildGaugesLoop (src mname : String) (t : Int) :
    List (String × FieldValue) → Except String (List Gauge)
  | [] => .ok []
  | (fn, v) :: rest =>
    let metricName := if fn = "value" then mname else mname ++ "." ++ fn
    if verifyValue v then
      match setValue v with
      | .error e => .error ("unable to extract value from Fields: " ++ e)
      | .ok val =>
        match buildGaugesLoop src mname t rest with
        | .error e => .error e
        | .ok gs =>
          .ok (⟨replaceUnaccepted metricName, val, replaceUnaccepted src, t⟩ :: gs)
    else buildGaugesLoop src mname t rest

/-- `Librato.buildGauges`.  The metric source string is computed by the
graphite serializer (`graphite.InsertField(graphite.SerializeBucketName
("", m.Tags(), l.Template, ""), "value")`), which lives outside the
analysed file; it is passed in as `src`. -/
def buildGauges (src : String) (m : Metric) : Except String (List Gauge) :=
  if m.timeUnix = 0 then
    .error ("time was zero " ++ m.name)
  else if src = "" then
    .error "undeterminable Source type from Field"
  else
    buildGaugesLoop src m.name m.timeUnix m.fields

/-- `Librato.writeBatch(start, sizeBatch, metricCounter, tempGauges)`
posts the copied slice `tempGauges[start:end]` with
`end = min(start+sizeBatch, metricCounter)`.  JSON marshalling and the
HTTP POST live outside the pure slice logic; `post` stands for the
marshal-and-POST step, returning `none` on HTTP 200 and the error
otherwise.  Returns the sub-batch that was posted together with the
call's result. -/
def writeBatch (post : List Gauge → Option String) (start sizeBatch metricCounter : Nat)
    (tempGauges : List Gauge) : List Gauge × Option String :=
  let e := min (start + sizeBatch) metricCounter
  let batch := (tempGauges.drop start).take (e - start)
  (batch, post batch)

/-- The sub-batch slice `tempGauges[start:min(start+300, len)]` that one
iteration of `Librato.Write`'s batching loop hands to `writeBatch`. -/
def libratoSlice (gs : List Gauge) (start : Nat) : List Gauge :=
  (gs.drop start).take (min (start + 300) gs.length - start)

/-- The batching loop of `Librato.Write`:
`for start := 0; start < metricCounter; start += sizeBatch` with
`sizeBatch = 300`, stopping with the error of the first failed
`writeBatch`.  Returns the list of sub-batches actually posted (in
order) and `Write`'s return value. -/
def writeLoop (post : List Gauge → Option String) (tempGauges : List Gauge)
    (start : Nat) : List (List Gauge) × Option String :=
  if _h : start < tempGauges.length then
    let br := writeBatch post start 300 tempGauges.length tempGauges
    match br.2 with
    | some e => ([br.1], some e)
    | none =>
      let p := writeLoop post tempGauges (start + 300)
      (br.1 :: p.1, p.2)
  else
    ([], none)
termination_by tempGauges.length - start
decreasing_by omega

/-- Everything observable about one call of `Librato.Write`: the gauges
built from the batch, the sub-batches posted, and the returned error. -/
structure LibratoRun where
  gauges : List Gauge
  posted : List (List Gauge)
  err : Option String
deriving DecidableEq, Repr

/-- `Librato.Write`: empty batches return nil immediately; otherwise
gauges are built per metric (metrics whose `buildGauges` fails are
logged and skipped) and sent in sub-batches of at most 300.  `src m`
is the graphite-derived source string for `m` (computed outside the
analysed file). -/
def libratoWrite (src : Metric → String) (post : List Gauge → Option String)
    (metrics : List Metric) : LibratoRun :=
  match metrics with
  | [] => ⟨[], [], none⟩
  | _ =>
    let tempGauges :=
      (metrics.map (fun m =>
        match buildGauges (src m) m with
        | .ok gs => gs
        | .error _ => [])).flatten
    let (posted, err) := writeLoop post tempGauges 0
    ⟨tempGauges, posted, err⟩

/-! ## Concrete instances used by witnesses and counterexamples -/

/-- A metric the faulty serializer below rejects. -/
def badMetric : Metric := ⟨"bad", [], [("value", .int 1)], 1⟩

/-- A metric every serializer below accepts. -/
def goodMetric : Metric := ⟨"good", [("host", "a")], [("value", .int 2)], 1⟩

/-- A serializer that fails exactly on metrics named `bad`. -/
def szBadName : ShimSerializer :=
  ⟨none, fun m => if m.name = "bad" then .error "malformed" else .ok (m.name ++ "\n")⟩

/-- A serializer that always succeeds. -/
def szOk : ShimSerializer := ⟨none, fun m => .ok (m.name ++ "\n")⟩

/-- A stream whose writes always succeed. -/
def wAlways : OutStream := ⟨fun _ _ => true⟩

/-- A stream whose writes always fail. -/
def wNever : OutStream := ⟨fun _ _ => false⟩

/-! ## Lemmas about the shim output loop -/

/-- Processing a channel whose leading metrics all succeed: the loop
accepts each of them, writes their records, and continues on the rest
with the extended write history. -/
lemma wpmLoop_append_ok (sz : ShimSerializer) (w : OutStream) :
    ∀ (ms rest : List Metric) (hist : List String),
      allOkB sz w hist ms = true →
      wpmLoop sz w (ms ++ rest) hist =
        ⟨ms.map (fun m => (m, Disposition.accept)) ++
            (wpmLoop sz w rest (hist ++ oksOf sz ms)).disp,
         oksOf sz ms ++ (wpmLoop sz w rest (hist ++ oksOf sz ms)).out,
         (wpmLoop sz w rest (hist ++ oksOf sz ms)).err⟩
  | [], rest, hist, _ => by simp [oksOf]
  | m :: ms, rest, hist, h => by
    cases hsm : sz.serialize m with
    | error e => simp [allOkB, hsm] at h
    | ok b =>
      have h' : w.writeOk hist b = true ∧ allOkB sz w (hist ++ [b]) ms = true := by
        simpa [allOkB, hsm, Bool.and_eq_true] using h
      have ih := wpmLoop_append_ok sz w ms rest (hist ++ [b]) h'.2
      have hoks : oksOf sz (m :: ms) = b :: oksOf sz ms := by
        simp [oksOf, hsm, Except.toOption]
      have step : wpmLoop sz w ((m :: ms) ++ rest) hist =
          ⟨(m, .accept) :: (wpmLoop sz w (ms ++ rest) (hist ++ [b])).disp,
           b :: (wpmLoop sz w (ms ++ rest) (hist ++ [b])).out,
           (wpmLoop sz w (ms ++ rest) (hist ++ [b])).err⟩ := by
        simp [wpmLoop, hsm, h'.1]
      rw [step, ih, hoks]
      simp [List.append_assoc]

/-- The loop returns nil exactly when every metric of the channel is
serialized and written successfully. -/
lemma wpmLoop_err_none_iff (sz : ShimSerializer) (w : OutStream) :
    ∀ (ms : List Metric) (hist : List String),
      (wpmLoop sz w ms hist).err = none ↔ allOkB sz w hist ms = true
  | [], hist => by simp [wpmLoop, allOkB]
  | m :: ms, hist => by
    cases hsm : sz.serialize m with
    | error e => simp [wpmLoop, allOkB, hsm]
    | ok b =>
      by_cases hw : w.writeOk hist b = true
      · simpa [wpmLoop, allOkB, hsm, hw] using wpmLoop_err_none_iff sz w ms (hist ++ [b])
      · simp [wpmLoop, allOkB, hsm, hw]

/-- The metrics the loop disposes form an initial segment of the
channel: exactly one disposition call is made per received metric, in
arrival order, and nothing else is disposed. -/
lemma wpmLoop_disp_initial (sz : ShimSerializer) (w : OutStream) :
    ∀ (ms : List Metric) (hist : List String),
      ∃ rest, (wpmLoop sz w ms hist).disp.map Prod.fst ++ rest = ms
  | [], _ => ⟨[], by simp [wpmLoop]⟩
  | m :: ms, hist => by
    cases hsm : sz.serialize m with
    | error e => exact ⟨ms, by simp [wpmLoop, hsm]⟩
    | ok b =>
      by_cases hw : w.writeOk hist b = true
      · obtain ⟨rest, hrest⟩ := wpmLoop_disp_initial sz w ms (hist ++ [b])
        exact ⟨rest, by simp [wpmLoop, hsm, hw, hrest]⟩
      · exact ⟨ms, by simp [wpmLoop, hsm, hw]⟩

/-! ## Claim theorems for the shim output path -/

/-- C1: in the shim's output path, every metric received on the metric
channel whose serialization and whose write to the output stream both
succeed is given the disposition Accept, and no other disposition: the
disposition log contains exactly one entry per received metric in
arrival order (an initial segment of the channel), and the entry for
this metric's reception is `(m, accept)`. -/
theorem shim_accept_on_success (sz : ShimSerializer) (w : OutStream)
    (pre rest : List Metric) (m : Metric) (b : String)
    (hinit : sz.initErr = none)
    (hpre : allOkB sz w [] pre = true)
    (hser : sz.serialize m = Except.ok b)
    (hwr : w.writeOk (oksOf sz pre) b = true) :
    (writeProcessedMetrics sz w (pre ++ m :: rest)).disp[pre.length]? =
      some (m, Disposition.accept) ∧
    ∃ tail, (writeProcessedMetrics sz w (pre ++ m :: rest)).disp.map Prod.fst ++ tail =
      pre ++ m :: rest := by
  have hrun : writeProcessedMetrics sz w (pre ++ m :: rest) =
      wpmLoop sz w (pre ++ m :: rest) [] := by
    simp [writeProcessedMetrics, hinit]
  constructor
  · have happ := wpmLoop_append_ok sz w pre (m :: rest) [] hpre
    have hstep : wpmLoop sz w (m :: rest) (oksOf sz pre) =
        ⟨(m, Disposition.accept) :: (wpmLoop sz w rest (oksOf sz pre ++ [b])).disp,
         b :: (wpmLoop sz w rest (oksOf sz pre ++ [b])).out,
         (wpmLoop sz w rest (oksOf sz pre ++ [b])).err⟩ := by
      simp [wpmLoop, hser, hwr]
    rw [hrun, happ]
    simp only [List.nil_append, hstep]
    have hlen : pre.length = (pre.map (fun x => (x, Disposition.accept))).length := by simp
    rw [hlen, List.getElem?_append_right (le_refl _)]
    simp
  · obtain ⟨tail, htail⟩ := wpmLoop_disp_initial sz w (pre ++ m :: rest) []
    exact ⟨tail, by rw [hrun]; exact htail⟩

/-- C1 witness: a concrete channel on which the second metric is
serialized and written successfully and gets Accept. -/
theorem shim_accept_on_success_witness :
    (writeProcessedMetrics szOk wAlways ([goodMetric] ++ badMetric :: [])).disp[1]? =
      some (badMetric, Disposition.accept) ∧
    ∃ tail, (writeProcessedMetrics szOk wAlways
        ([goodMetric] ++ badMetric :: [])).disp.map Prod.fst ++ tail =
      [goodMetric] ++ badMetric :: [] :=
  shim_accept_on_success szOk wAlways [goodMetric] [] badMetric ("bad" ++ "\n")
    rfl (by decide) rfl rfl

/-- C2 counterexample: with a channel holding a metric that fails to
serialize followed by a well-formed one, `writeProcessedMetrics` rejects
the bad record and returns an error without ever processing the second
metric — a single bad record does terminate the unit's processing loop,
it is not skipped. -/
theorem shim_bad_record_terminates_cex :
    (writeProcessedMetrics szBadName wAlways [badMetric, goodMetric]).disp =
      [(badMetric, Disposition.reject)] ∧
    (writeProcessedMetrics szBadName wAlways [badMetric, goodMetric]).err =
      some ("failed to serialize metric: " ++ "malformed") ∧
    (writeProcessedMetrics szBadName wAlways [badMetric, goodMetric]).out = [] := by
  refine ⟨?_, ?_, ?_⟩ <;> rfl

/-- C2 (amended): when serializing a metric from the channel fails, the
unit marks that one record Reject and returns a non-nil error,
terminating the processing loop; the subsequent metrics from the channel
are not processed. -/
theorem shim_serialize_failure_stops (sz : ShimSerializer) (w : OutStream)
    (pre rest : List Metric) (m : Metric) (e : String)
    (hinit : sz.initErr = none)
    (hpre : allOkB sz w [] pre = true)
    (hser : sz.serialize m = Except.error e) :
    writeProcessedMetrics sz w (pre ++ m :: rest) =
      ⟨pre.map (fun x => (x, Disposition.accept)) ++ [(m, Disposition.reject)],
       oksOf sz pre,
       some ("failed to serialize metric: " ++ e)⟩ := by
  have happ := wpmLoop_append_ok sz w pre (m :: rest) [] hpre
  have hstep : wpmLoop sz w (m :: rest) (oksOf sz pre) =
      ⟨[(m, Disposition.reject)], [], some ("failed to serialize metric: " ++ e)⟩ := by
    simp [wpmLoop, hser]
  simp only [List.nil_append] at happ
  simp [writeProcessedMetrics, hinit, happ, hstep]

/-- C2 (amended) witness: concrete channel where the first metric fails
to serialize. -/
theorem shim_serialize_failure_stops_witness :
    writeProcessedMetrics szBadName wAlways ([] ++ badMetric :: [goodMetric]) =
      ⟨[(badMetric, Disposition.reject)], [],
       some ("failed to serialize metric: " ++ "malformed")⟩ :=
  shim_serialize_failure_stops szBadName wAlways [] [goodMetric] badMetric "malformed"
    rfl rfl rfl

/-- C3: a metric whose serialization fails is immediately given the
terminal disposition Reject (which is one of drop/reject), before the
function returns, and is never retried: its disposition entry is the
last one of the run and the function returns right after it. -/
theorem shim_serialize_failure_terminal (sz : ShimSerializer) (w : OutStream)
    (pre rest : List Metric) (m : Metric) (e : String)
    (hinit : sz.initErr = none)
    (hpre : allOkB sz w [] pre = true)
    (hser : sz.serialize m = Except.error e) :
    (writeProcessedMetrics sz w (pre ++ m :: rest)).disp[pre.length]? =
      some (m, Disposition.reject) ∧
    (writeProcessedMetrics sz w (pre ++ m :: rest)).disp.length = pre.length + 1 ∧
    (writeProcessedMetrics sz w (pre ++ m :: rest)).err =
      some ("failed to serialize metric: " ++ e) := by
  have happ := wpmLoop_append_ok sz w pre (m :: rest) [] hpre
  have hstep : wpmLoop sz w (m :: rest) (oksOf sz pre) =
      ⟨[(m, Disposition.reject)], [], some ("failed to serialize metric: " ++ e)⟩ := by
    simp [wpmLoop, hser]
  simp only [List.nil_append] at happ
  have hrun : writeProcessedMetrics sz w (pre ++ m :: rest) =
      wpmLoop sz w (pre ++ m :: rest) [] := by
    simp [writeProcessedMetrics, hinit]
  rw [hrun, happ, hstep]
  refine ⟨?_, by simp, rfl⟩
  have hlen : pre.length = (pre.map (fun x => (x, Disposition.accept))).length := by simp
  rw [hlen, List.getElem?_append_right (le_refl _)]
  simp

/-- C3 witness: concrete instantiation of the serialization-failure
disposition theorem. -/
theorem shim_serialize_failure_terminal_witness :
    (writeProcessedMetrics szBadName wAlways ([goodMetric] ++ badMetric :: [])).disp[
      List.length [goodMetric]]? = some (badMetric, Disposition.reject) ∧
    (writeProcessedMetrics szBadName wAlways
        ([goodMetric] ++ badMetric :: [])).disp.length = List.length [goodMetric] + 1 ∧
    (writeProcessedMetrics szBadName wAlways ([goodMetric] ++ badMetric :: [])).err =
      some ("failed to serialize metric: " ++ "malformed") :=
  shim_serialize_failure_terminal szBadName wAlways [goodMetric] [] badMetric "malformed"
    rfl (by decide) rfl

/-- C4: when writing a serialized record to the output stream fails,
`writeProcessedMetrics` stops and returns a non-nil error: the failing
metric is the last one disposed (as Drop), nothing further is written,
and the metrics after it are never processed. -/
theorem shim_write_failure_fatal (sz : ShimSerializer) (w : OutStream)
    (pre rest : List Metric) (m : Metric) (b : String)
    (hinit : sz.initErr = none)
    (hpre : allOkB sz w [] pre = true)
    (hser : sz.serialize m = Except.ok b)
    (hwr : w.writeOk (oksOf sz pre) b = false) :
    writeProcessedMetrics sz w (pre ++ m :: rest) =
      ⟨pre.map (fun x => (x, Disposition.accept)) ++ [(m, Disposition.drop)],
       oksOf sz pre,
       some "failed to write metric"⟩ := by
  have happ := wpmLoop_append_ok sz w pre (m :: rest) [] hpre
  have hstep : wpmLoop sz w (m :: rest) (oksOf sz pre) =
      ⟨[(m, Disposition.drop)], [], some "failed to write metric"⟩ := by
    simp [wpmLoop, hser, hwr]
  simp only [List.nil_append] at happ
  simp [writeProcessedMetrics, hinit, happ, hstep]

/-- C4 witness: a stream whose writes always fail makes the unit stop at
the first metric with a non-nil error. -/
theorem shim_write_failure_fatal_witness :
    writeProcessedMetrics szOk wNever ([] ++ goodMetric :: [badMetric]) =
      ⟨[(goodMetric, Disposition.drop)], [], some "failed to write metric"⟩ :=
  shim_write_failure_fatal szOk wNever [] [badMetric] goodMetric ("good" ++ "\n")
    rfl rfl rfl rfl

/-- C5 counterexample: a metric discarded because the write of its
serialized record to the output stream failed receives the disposition
Drop, not Reject as the claim states. -/
theorem shim_delivery_failure_reject_cex :
    (writeProcessedMetrics szOk wNever [goodMetric]).disp =
      [(goodMetric, Disposition.drop)] ∧
    (writeProcessedMetrics szOk wNever [goodMetric]).disp ≠
      [(goodMetric, Disposition.reject)] := by
  refine ⟨rfl, by decide⟩

/-- C5 (amended): a metric whose delivery attempt failed (the write of
its serialized record returned an error) receives the disposition Drop,
not Reject. -/
theorem shim_delivery_failure_disposition (sz : ShimSerializer) (w : OutStream)
    (pre rest : List Metric) (m : Metric) (b : String)
    (hinit : sz.initErr = none)
    (hpre : allOkB sz w [] pre = true)
    (hser : sz.serialize m = Except.ok b)
    (hwr : w.writeOk (oksOf sz pre) b = false) :
    (writeProcessedMetrics sz w (pre ++ m :: rest)).disp[pre.length]? =
      some (m, Disposition.drop) := by
  have happ := wpmLoop_append_ok sz w pre (m :: rest) [] hpre
  have hstep : wpmLoop sz w (m :: rest) (oksOf sz pre) =
      ⟨[(m, Disposition.drop)], [], some "failed to write metric"⟩ := by
    simp [wpmLoop, hser, hwr]
  simp only [List.nil_append] at happ
  have hrun : writeProcessedMetrics sz w (pre ++ m :: rest) =
      wpmLoop sz w (pre ++ m :: rest) [] := by
    simp [writeProcessedMetrics, hinit]
  rw [hrun, happ, hstep]
  have hlen : pre.length = (pre.map (fun x => (x, Disposition.accept))).length := by simp
  rw [hlen, List.getElem?_append_right (le_refl _)]
  simp

/-- C5 (amended) witness: concrete write failure receiving Drop. -/
theorem shim_delivery_failure_disposition_witness :
    (writeProcessedMetrics szOk wNever ([] ++ goodMetric :: [])).disp[
      List.length ([] : List Metric)]? = some (goodMetric, Disposition.drop) :=
  shim_delivery_failure_disposition szOk wNever [] [] goodMetric ("good" ++ "\n")
    rfl rfl rfl rfl

/-- C6: `writeProcessedMetrics` returns nil exactly when it has drained
the metric channel to its close (serialization and write succeeding on
every received metric), and in that case every metric received before
the close is serialized and written to the output stream in arrival
order and accepted.  The loop never consults the cancelled context, so
metrics still pending after a shutdown signal are handled the same way:
no record produced before the signal is lost. -/
theorem shim_nil_iff_drained (sz : ShimSerializer) (w : OutStream) (ms : List Metric)
    (hinit : sz.initErr = none) :
    ((writeProcessedMetrics sz w ms).err = none ↔ allOkB sz w [] ms = true) ∧
    (allOkB sz w [] ms = true →
      (writeProcessedMetrics sz w ms).out = oksOf sz ms ∧
      (writeProcessedMetrics sz w ms).disp = ms.map (fun m => (m, Disposition.accept))) := by
  have hrun : writeProcessedMetrics sz w ms = wpmLoop sz w ms [] := by
    simp [writeProcessedMetrics, hinit]
  constructor
  · rw [hrun]
    exact wpmLoop_err_none_iff sz w ms []
  · intro hok
    have happ := wpmLoop_append_ok sz w ms [] [] hok
    rw [hrun]
    simp only [List.append_nil, List.nil_append] at happ
    rw [happ]
    simp [wpmLoop]

/-- C6 witness: a concrete fully-successful run returning nil with all
records written in order. -/
theorem shim_nil_iff_drained_witness :
    ((writeProcessedMetrics szOk wAlways [goodMetric, badMetric]).err = none ↔
      allOkB szOk wAlways [] [goodMetric, badMetric] = true) ∧
    (allOkB szOk wAlways [] [goodMetric, badMetric] = true →
      (writeProcessedMetrics szOk wAlways [goodMetric, badMetric]).out =
        oksOf szOk [goodMetric, badMetric] ∧
      (writeProcessedMetrics szOk wAlways [goodMetric, badMetric]).disp =
        [goodMetric, badMetric].map (fun m => (m, Disposition.accept))) :=
  shim_nil_iff_drained szOk wAlways [goodMetric, badMetric] rfl

/-! ## Lemmas about the Librato batching loop -/

/-- Each sub-batch slice holds at most 300 gauges. -/
lemma libratoSlice_length_le (gs : List Gauge) (start : Nat) :
    (libratoSlice gs start).length ≤ 300 := by
  simp only [libratoSlice, List.length_take, List.length_drop]
  omega

/-- One slice followed by the rest of the gauges from the next loop
index reassembles the tail of the gauge list. -/
lemma libratoSlice_append_drop (gs : List Gauge) (start : Nat) :
    libratoSlice gs start ++ gs.drop (start + 300) = gs.drop start := by
  have h2 : List.drop (min (start + 300) gs.length - start) (gs.drop start) =
      gs.drop (start + 300) := by
    rw [List.drop_drop]
    rcases le_or_lt gs.length (start + 300) with hle | hlt
    · rw [List.drop_eq_nil_of_le (by omega), List.drop_eq_nil_of_le (by omega)]
    · have hmin : start + (min (start + 300) gs.length - start) = start + 300 := by omega
      rw [hmin]
  calc libratoSlice gs start ++ gs.drop (start + 300)
      = List.take (min (start + 300) gs.length - start) (gs.drop start) ++
          List.drop (min (start + 300) gs.length - start) (gs.drop start) := by
        rw [h2]; rfl
    _ = gs.drop start := List.take_append_drop _ _

/-- Full behaviour of the batching loop from any start index: every
posted sub-batch has at most 300 gauges; on success the posted
sub-batches concatenate to exactly the gauges from `start` on; on
failure the loop posted some prefix of the sub-batches, the last posted
one is the failing one whose error is returned, and everything posted
concatenates to an initial segment of the gauges from `start` on. -/
lemma writeLoop_spec (post : List Gauge → Option String) (gs : List Gauge) (start : Nat) :
    (∀ b ∈ (writeLoop post gs start).1, b.length ≤ 300) ∧
    ((writeLoop post gs start).2 = none →
      (writeLoop post gs start).1.flatten = gs.drop start) ∧
    (∀ e, (writeLoop post gs start).2 = some e →
      ∃ bs b, (writeLoop post gs start).1 = bs ++ [b] ∧ post b = some e ∧
        (∀ b' ∈ bs, post b' = none) ∧
        ∃ tail, (writeLoop post gs start).1.flatten ++ tail = gs.drop start) := by
  by_cases h : start < gs.length
  · cases hp : post (libratoSlice gs start) with
    | some e =>
      have hp' : post (List.take (min (start + 300) gs.length - start)
          (List.drop start gs)) = some e := hp
      have hw : writeLoop post gs start = ([libratoSlice gs start], some e) := by
        rw [writeLoop]
        simp [h, writeBatch, libratoSlice, hp']
      rw [hw]
      refine ⟨?_, by simp, ?_⟩
      · intro b hb
        simp only [List.mem_singleton] at hb
        subst hb
        exact libratoSlice_length_le gs start
      · intro e' he'
        simp only [Option.some.injEq] at he'
        subst he'
        refine ⟨[], libratoSlice gs start, by simp, hp, by simp, gs.drop (start + 300), ?_⟩
        simpa using libratoSlice_append_drop gs start
    | none =>
      have ih := writeLoop_spec post gs (start + 300)
      have hp' : post (List.take (min (start + 300) gs.length - start)
          (List.drop start gs)) = none := hp
      have hw : writeLoop post gs start =
          (libratoSlice gs start :: (writeLoop post gs (start + 300)).1,
           (writeLoop post gs (start + 300)).2) := by
        rw [writeLoop]
        simp [h, writeBatch, libratoSlice, hp']
      obtain ⟨ih1, ih2, ih3⟩ := ih
      rw [hw]
      refine ⟨?_, ?_, ?_⟩
      · intro b hb
        rcases List.mem_cons.mp hb with hb | hb
        · subst hb; exact libratoSlice_length_le gs start
        · exact ih1 b hb
      · intro hnone
        have hfl := ih2 hnone
        simp only [List.flatten_cons, hfl]
        exact libratoSlice_append_drop gs start
      · intro e' he'
        obtain ⟨bs, b, hbs, hpb, hnone, tail, htail⟩ := ih3 e' he'
        refine ⟨libratoSlice gs start :: bs, b, by simp [hbs], hpb, ?_, tail, ?_⟩
        · intro b' hb'
          rcases List.mem_cons.mp hb' with h' | h'
          · subst h'; exact hp
          · exact hnone b' h'
        · simp only [List.flatten_cons, List.append_assoc, htail]
          exact libratoSlice_append_drop gs start
  · have hw : writeLoop post gs start = ([], none) := by
      rw [writeLoop]
      simp [h]
    rw [hw]
    refine ⟨by simp, ?_, by simp⟩
    intro _
    simp [List.drop_eq_nil_of_le (Nat.le_of_not_lt h)]
termination_by gs.length - start
decreasing_by omega

/-- A field value accepted by `verifyValue` is convertible by
`setValue`. -/
lemma setValue_ok_of_verify {v : FieldValue} (h : verifyValue v = true) :
    ∃ q, setValue v = Except.ok q := by
  cases v <;> simp [verifyValue, setValue] at h ⊢

/-- The field loop of `buildGauges` never fails, and produces exactly
one gauge per field whose value passes `verifyValue`. -/
lemma buildGaugesLoop_length (src mname : String) (t : Int) :
    ∀ fs : List (String × FieldValue),
      ∃ gs, buildGaugesLoop src mname t fs = Except.ok gs ∧
        gs.length = (fs.filter (fun p => verifyValue p.2)).length
  | [] => ⟨[], rfl, by simp⟩
  | (fn, v) :: rest => by
    obtain ⟨gs, hgs, hlen⟩ := buildGaugesLoop_length src mname t rest
    by_cases hv : verifyValue v = true
    · obtain ⟨q, hq⟩ := setValue_ok_of_verify hv
      refine ⟨⟨replaceUnaccepted (if fn = "value" then mname else mname ++ "." ++ fn),
          q, replaceUnaccepted src, t⟩ :: gs, ?_, ?_⟩
      · simp [buildGaugesLoop, hv, hq, hgs]
      · simp [List.filter_cons, hv, hlen]
    · refine ⟨gs, ?_, ?_⟩
      · simp [buildGaugesLoop, hv, hgs]
      · simp [List.filter_cons, hv, hlen]

/-! ## Claim theorems for `Shim.Run` and the Librato plugin -/

/-- C8: `Shim.Run` executes exactly one configured unit, preferring
Input over Processor over Output, and returns an error exactly when no
unit is configured ("nothing to run") or the selected unit's run
fails. -/
theorem shim_run_selection (s : ShimUnits) :
    ((s.hasInput || s.hasProcessor || s.hasOutput) = true → (shimRun s).1.length = 1) ∧
    (s.hasInput = true → (shimRun s).1 = [UnitKind.input]) ∧
    (s.hasInput = false → s.hasProcessor = true → (shimRun s).1 = [UnitKind.processor]) ∧
    (s.hasInput = false → s.hasProcessor = false → s.hasOutput = true →
      (shimRun s).1 = [UnitKind.output]) ∧
    ((s.hasInput || s.hasProcessor || s.hasOutput) = false → (shimRun s).1 = []) ∧
    ((shimRun s).2.isSome = true ↔
      ((s.hasInput || s.hasProcessor || s.hasOutput) = false ∨
        (if s.hasInput then s.runInput
         else if s.hasProcessor then s.runProcessor
         else s.runOutput).isSome = true)) := by
  rcases s with ⟨hi, hp, ho, ri, rp, ro⟩
  cases hi <;> cases hp <;> cases ho <;> cases ri <;> cases rp <;> cases ro <;>
    simp [shimRun]

/-- C8 witness: a shim with both a processor and an output configured
runs only the processor and propagates its failure. -/
theorem shim_run_selection_witness :
    ((false || true || true) = true →
      (shimRun ⟨false, true, true, none, some "boom", none⟩).1.length = 1) ∧
    (false = true → (shimRun ⟨false, true, true, none, some "boom", none⟩).1 =
      [UnitKind.input]) ∧
    (false = false → true = true →
      (shimRun ⟨false, true, true, none, some "boom", none⟩).1 = [UnitKind.processor]) ∧
    (false = false → true = false → true = true →
      (shimRun ⟨false, true, true, none, some "boom", none⟩).1 = [UnitKind.output]) ∧
    ((false || true || true) = false →
      (shimRun ⟨false, true, true, none, some "boom", none⟩).1 = []) ∧
    ((shimRun ⟨false, true, true, none, some "boom", none⟩).2.isSome = true ↔
      ((false || true || true) = false ∨
        (if false then none
         else if true then some "boom"
         else none : Option String).isSome = true)) :=
  shim_run_selection ⟨false, true, true, none, some "boom", none⟩

/-- C7: for the empty batch, `Librato.Write` returns nil without
building any gauge or posting any sub-batch. -/
theorem librato_write_empty_noop (src : Metric → String)
    (post : List Gauge → Option String) :
    libratoWrite src post [] = ⟨[], [], none⟩ := rfl

/-- C9: the batching loop of `Librato.Write` posts the built gauges in
consecutive order-preserving sub-batches of at most 300 gauges each; on
success the sub-batches concatenate to exactly the full gauge list
(every gauge covered exactly once), and on a sub-batch failure the
returned error is that sub-batch's error and no later sub-batch is
posted (everything posted is an initial segment of the gauges). -/
theorem librato_write_batching (post : List Gauge → Option String) (gs : List Gauge) :
    (∀ b ∈ (writeLoop post gs 0).1, b.length ≤ 300) ∧
    ((writeLoop post gs 0).2 = none → (writeLoop post gs 0).1.flatten = gs) ∧
    (∀ e, (writeLoop post gs 0).2 = some e →
      ∃ bs b, (writeLoop post gs 0).1 = bs ++ [b] ∧ post b = some e ∧
        (∀ b' ∈ bs, post b' = none) ∧
        ∃ tail, (writeLoop post gs 0).1.flatten ++ tail = gs) := by
  simpa using writeLoop_spec post gs 0

/-- C9 witness: with a sink that accepts every POST, the loop posts all
gauges exactly once. -/
theorem librato_write_batching_witness :
    (writeLoop (fun _ => none) [⟨"m.value", 1, "h", 1⟩, ⟨"m.f", 2, "h", 1⟩] 0).1.flatten =
      [⟨"m.value", 1, "h", 1⟩, ⟨"m.f", 2, "h", 1⟩] :=
  (librato_write_batching (fun _ => none)
    [⟨"m.value", 1, "h", 1⟩, ⟨"m.f", 2, "h", 1⟩]).2.1 (by simp [writeLoop, writeBatch])

/-- C10: for a metric whose graphite-derived source string is
non-empty, `buildGauges` fails exactly when the metric's Unix timestamp
is zero; otherwise it succeeds and returns exactly one gauge per field
whose value passes `verifyValue` (i.e. is not a string), silently
omitting string-valued fields. -/
theorem librato_build_gauges_spec (src : String) (m : Metric) (hsrc : src ≠ "") :
    ((∃ e, buildGauges src m = Except.error e) ↔ m.timeUnix = 0) ∧
    (∀ gs, buildGauges src m = Except.ok gs →
      gs.length = (m.fields.filter (fun p => verifyValue p.2)).length) := by
  by_cases ht : m.timeUnix = 0
  · constructor
    · simp [buildGauges, ht]
    · intro gs hgs
      simp [buildGauges, ht] at hgs
  · obtain ⟨gs, hgs, hlen⟩ := buildGaugesLoop_length src m.name m.timeUnix m.fields
    constructor
    · simp [buildGauges, ht, hsrc, hgs]
    · intro gs' hgs'
      simp only [buildGauges, if_neg ht, if_neg hsrc, hgs, Except.ok.injEq] at hgs'
      rw [← hgs']
      exact hlen

/-- C10 witness: a concrete metric with a string field and an integer
field yields exactly one gauge, and fails exactly on a zero
timestamp. -/
theorem librato_build_gauges_spec_witness :
    ((∃ e, buildGauges "a" goodMetric = Except.error e) ↔ goodMetric.timeUnix = 0) ∧
    (∀ gs, buildGauges "a" goodMetric = Except.ok gs →
      gs.length = (goodMetric.fields.filter (fun p => verifyValue p.2)).length) :=
  librato_build_gauges_spec "a" goodMetric (by decide)

end Telegraf
